import Mathlib

/-!
Verification development for the tool-orchestration core of the repository:
the Connection Manager (src/services/mcp/mcp.client.ts), the Tool Registry
(services/tools/tool-registration.service.ts, provided unnamed) and the
Action Result Normalizer (actionService.updateActionWithResult, provided
unnamed).  The TypeScript sources are shallowly embedded: runtime JavaScript
values are modelled by the inductive type JsVal below, stateful services by
explicit state records and step functions, and JavaScript promise scheduling
by the run-to-completion model in which the synchronous segment of a
function between two await points is one atomic step.
-/

namespace AliceAgi

/-! ## A model of JavaScript runtime values

Arrays and objects are modelled by dedicated list-like types so that all
functions below are structurally recursive and reduce inside the kernel.
Numbers are modelled by integers; every numeric value appearing in the
sources and claims under verification is integral.  Objects are association
lists without duplicate keys (JavaScript objects cannot hold two properties
of the same name); lookup takes the first binding.
-/

mutual

inductive JsVal where
  | undef
  | null
  | bool (b : Bool)
  | num (n : Int)
  | str (s : String)
  | arr (elems : JsArr)
  | obj (fields : JsObj)

inductive JsArr where
  | nil
  | cons (hd : JsVal) (tl : JsArr)

inductive JsObj where
  | nil
  | cons (key : String) (val : JsVal) (tl : JsObj)

end

deriving instance DecidableEq for JsVal

deriving instance DecidableEq for JsArr

deriving instance DecidableEq for JsObj

/-- Conversion of a modelled array to a Lean list of its elements. -/
def JsArr.toList : JsArr → List JsVal
  | .nil => []
  | .cons x xs => x :: xs.toList

/-- Conversion of a Lean list to a modelled array. -/
def JsArr.ofList : List JsVal → JsArr
  | [] => .nil
  | x :: xs => .cons x (JsArr.ofList xs)

/-- Conversion of a modelled object to an association list. -/
def JsObj.toList : JsObj → List (String × JsVal)
  | .nil => []
  | .cons k v fs => (k, v) :: fs.toList

/-- Number of fields of a modelled object. -/
def JsObj.length : JsObj → Nat
  | .nil => 0
  | .cons _ _ fs => fs.length + 1

/-- Keys of a modelled object, in insertion order. -/
def JsObj.keys : JsObj → List String
  | .nil => []
  | .cons k _ fs => k :: fs.keys

/-- First binding of a key in a modelled object. -/
def JsObj.lookup : JsObj → String → Option JsVal
  | .nil, _ => none
  | .cons k v fs, key => if k = key then some v else fs.lookup key

/-- Property-existence test on a modelled object. -/
def JsObj.hasKey (fields : JsObj) (key : String) : Bool :=
  (fields.lookup key).isSome

/-- JavaScript truthiness: undefined, null, false, 0 and the empty string
are falsy; every array and object is truthy. -/
def JsVal.truthy : JsVal → Bool
  | .undef => false
  | .null => false
  | .bool b => b
  | .num n => decide (n ≠ 0)
  | .str s => decide (s ≠ "")
  | .arr _ => true
  | .obj _ => true

/-- Test for the shapes on which typeof yields the word object while the
value is not null, i.e. arrays and objects. -/
def JsVal.isObjOrArr : JsVal → Bool
  | .arr _ => true
  | .obj _ => true
  | _ => false

/-- Array test, mirroring Array.isArray. -/
def JsVal.isArray : JsVal → Bool
  | .arr _ => true
  | _ => false

/-- Elements of a value known to be an array; empty otherwise. -/
def JsVal.elems : JsVal → List JsVal
  | .arr xs => xs.toList
  | _ => []

/-- Property access v.k.  Objects yield the bound value or undefined;
arrays and primitives yield undefined for the named properties read by the
modelled code.  JavaScript would throw on a null or undefined receiver; the
modelled sources only dereference receivers they have checked to be
non-nullish, so that case is unreachable in every theorem below. -/
def JsVal.get : JsVal → String → JsVal
  | .obj fs, key => (fs.lookup key).getD .undef
  | _, _ => (.undef)

/-- Nullish test: the two values excluded by the strict comparisons
value !== undefined && value !== null in the digest filter. -/
def JsVal.isNullish : JsVal → Bool
  | .undef => true
  | .null => true
  | _ => false

/-- The JavaScript logical-or a || b, which yields a when a is truthy and b
otherwise. -/
def jsOr (a b : JsVal) : JsVal :=
  if a.truthy then a else b

mutual

/-- JavaScript string conversion String(v), as performed by template
literals: arrays join the conversions of their elements with commas and
objects display as [object Object]. -/
def JsVal.toDisplay : JsVal → String
  | .undef => "undefined"
  | .null => "null"
  | .bool b => if b then "true" else "false"
  | .num n => toString n
  | .str s => s
  | .arr xs => String.intercalate "," xs.toDisplayList
  | .obj _ => "[object Object]"

/-- Element conversions for Array.prototype.toString: null and undefined
elements display as the empty string. -/
def JsArr.toDisplayList : JsArr → List String
  | .nil => []
  | .cons x xs =>
    (match x with
     | .undef => ""
     | .null => ""
     | v => v.toDisplay) :: xs.toDisplayList

end

/-- Escaping of quote and backslash characters for the JSON rendering of a
string.  Control-character escapes are omitted; no string handled by the
claims or the sources under verification contains control characters. -/
def jsonEscapeChar (c : Char) : String :=
  if c = '"' then "\\\"" else if c = '\\' then "\\\\" else String.singleton c

/-- JSON rendering of a string literal, with surrounding quotes. -/
def jsonQuote (s : String) : String :=
  "\"" ++ String.join (s.data.map jsonEscapeChar) ++ "\""

mutual

/-- Model of JSON.stringify.  It returns none exactly where JSON.stringify
returns undefined, namely on the input undefined; undefined elements of an
array serialize as null and undefined-valued fields of an object are
skipped, as in JavaScript. -/
def jsonStringify : JsVal → Option String
  | .undef => none
  | .null => some "null"
  | .bool b => some (if b then "true" else "false")
  | .num n => some (toString n)
  | .str s => some (jsonQuote s)
  | .arr xs => some ("[" ++ String.intercalate "," (jsonStringifyArr xs) ++ "]")
  | .obj fs => some ("\x7b" ++ String.intercalate "," (jsonStringifyObj fs) ++ "\x7d")

/-- Serializations of array elements for jsonStringify. -/
def jsonStringifyArr : JsArr → List String
  | .nil => []
  | .cons x xs => (jsonStringify x).getD "null" :: jsonStringifyArr xs

/-- Serializations of object fields for jsonStringify. -/
def jsonStringifyObj : JsObj → List String
  | .nil => []
  | .cons k v fs =>
    match jsonStringify v with
    | none => jsonStringifyObj fs
    | some sv => (jsonQuote k ++ ":" ++ sv) :: jsonStringifyObj fs

end

/-! ## Connection Manager: McpClientService (src/services/mcp/mcp.client.ts)

Sessions are the McpClient instances of the source; they are identified by
natural numbers.  The session store of the service consists of the two maps
clients and connectingPromises; both are keyed by the server id.
-/

/-- Server configuration record, from mcp-servers.config.  The field
transport_type is kept as a string because the runtime checks of the source
compare it against the literals stdio and http and keep a final else branch
for any other value. -/
structure McpServerConfig where
  id : String
  name : String
  address : Option String
  transport_type : String
  command : Option String
  args : List String
  env : List (String × String)
  enabled : Bool
deriving Repr, DecidableEq

/-- The distinct failures thrown by McpClientService.establishConnection,
one constructor per throw site, plus the failure of client.connect
itself. -/
inductive McpError where
  | stdioNoCommand
  | httpNoAddress
  | httpNotImplemented
  | unsupportedTransport (t : String)
  | connectFailed
deriving Repr, DecidableEq

/-- Configuration errors in the vocabulary of the specification: a
configuration missing the fields its declared transport needs. -/
def McpError.isConfigurationError : McpError → Bool
  | .stdioNoCommand => true
  | .httpNoAddress => true
  | _ => false

/-- NotImplemented and UnsupportedTransport errors in the vocabulary of the
specification, which groups the unimplemented http transport and unknown
transport kinds into one NotImplemented family. -/
def McpError.isNotImplementedError : McpError → Bool
  | .httpNotImplemented => true
  | .unsupportedTransport _ => true
  | _ => false

/-- Observable input-output effects of a connection attempt.  Building the
stdio transport and connecting the client spawns the configured child
process; it is the only effect on the success path of
establishConnection. -/
inductive ConnEffect where
  | spawnProcess (command : String) (args : List String)
deriving Repr, DecidableEq

/-- McpClientService.establishConnection.  The stdio branch throws when the
configured command is missing or empty (the JavaScript test is falsiness of
serverConfig.command) and otherwise builds the child-process transport and
connects; connectOk abstracts the outcome of client.connect and sessionId
is the identity of the McpClient instance created on success.  The http
branch throws when the address is missing or empty and throws a
not-yet-implemented error otherwise; any other transport kind throws an
unsupported-transport error.  The returned list records the effects
performed before the function returned or threw. -/
def establishConnection (cfg : McpServerConfig) (connectOk : Bool) (sessionId : Nat) :
    List ConnEffect × Except McpError Nat :=
  if cfg.transport_type = "stdio" then
    let cmd := cfg.command.getD ""
    if cmd = "" then
      ([], .error .stdioNoCommand)
    else if connectOk then
      ([.spawnProcess cmd cfg.args], .ok sessionId)
    else
      ([.spawnProcess cmd cfg.args], .error .connectFailed)
  else if cfg.transport_type = "http" then
    if cfg.address.getD "" = "" then
      ([], .error .httpNoAddress)
    else
      ([], .error .httpNotImplemented)
  else
    ([], .error (.unsupportedTransport cfg.transport_type))

/-- Association-list lookup for the string-keyed maps of the session
store. -/
def lookupA (m : List (String × Nat)) (k : String) : Option Nat :=
  (m.find? (fun p => p.1 = k)).map (fun p => p.2)

/-- Association-list insertion with JavaScript Map.set semantics: an
existing binding is overwritten in place, a new one is appended. -/
def insertA (m : List (String × Nat)) (k : String) (v : Nat) : List (String × Nat) :=
  if (m.find? (fun p => p.1 = k)).isSome then
    m.map (fun p => if p.1 = k then (k, v) else p)
  else
    m ++ [(k, v)]

/-- Association-list deletion, Map.delete. -/
def removeA (m : List (String × Nat)) (k : String) : List (String × Nat) :=
  m.filter (fun p => p.1 ≠ k)

/-- The session store of McpClientService: the clients map (server id to
live session) and the connectingPromises map (server id to the in-flight
connection attempt, identified by a number).  nextId supplies fresh attempt
identifiers and attemptsStarted counts how many underlying connection
attempts have ever been started. -/
structure McpStore where
  clients : List (String × Nat)
  connecting : List (String × Nat)
  nextId : Nat
  attemptsStarted : Nat
deriving Repr, DecidableEq

/-- Outcome of one call to getClient at the moment its synchronous prefix
completes: an already stored session is returned, the pending attempt for
the id is awaited, or a fresh attempt is started and registered. -/
inductive GetClientOutcome where
  | existingSession (sid : Nat)
  | awaitPending (aid : Nat)
  | startedConnect (aid : Nat)
deriving Repr, DecidableEq

/-- The synchronous prefix of McpClientService.getClient: check the clients
map, then the connectingPromises map, and otherwise start
establishConnection and register the returned promise.  Between the first
check and the registration the source performs no await, so in the
run-to-completion model of the JavaScript event loop this whole prefix is
one atomic step; any concurrency interleaves whole such steps. -/
def getClientStep (id : String) (st : McpStore) : GetClientOutcome × McpStore :=
  match lookupA st.clients id with
  | some sid => (.existingSession sid, st)
  | none =>
    match lookupA st.connecting id with
    | some aid => (.awaitPending aid, st)
    | none =>
      let aid := st.nextId
      (.startedConnect aid,
       { st with
         connecting := insertA st.connecting id aid
         nextId := st.nextId + 1
         attemptsStarted := st.attemptsStarted + 1 })

/-- Completion of an awaited connection attempt for a server id.  On
success the session is stored in the clients map and the finally clause of
getClient deletes the pending entry; on failure both the catch clause of
establishConnection and the finally clause of getClient delete the pending
entry and no session is stored.  Every caller that awaited the one
registered promise observes this same outcome. -/
def resolveConnect (id : String) (success : Option Nat) (st : McpStore) : McpStore :=
  match success with
  | some sid =>
    { st with
      clients := insertA st.clients id sid
      connecting := removeA st.connecting id }
  | none =>
    { st with connecting := removeA st.connecting id }

/-- A burst of n calls to getClient for the same server id, all issued
before the registered attempt resolves: the synchronous prefixes run one
after another in the event loop.  Returns the outcome observed by each call
in order, together with the final store. -/
def runGetClients (id : String) : Nat → McpStore → List GetClientOutcome × McpStore
  | 0, st => ([], st)
  | n + 1, st =>
    let (o, st1) := getClientStep id st
    let (os, st2) := runGetClients id n st1
    (o :: os, st2)

/-- Result of the listTools normalization: either a tool list is returned
to the caller (warned records whether the unexpected-shape warning was
logged first), or an exception is logged and re-thrown to the caller. -/
inductive ListToolsOutcome where
  | ok (tools : List JsVal) (warned : Bool)
  | raise (msg : String)
deriving DecidableEq

/-- The JavaScript in operator as used in the test (tools in result): a
property-existence check on objects, an index check on arrays (never true
for the key tools here), and a TypeError on any primitive right
operand.  Null and undefined also throw, but the source only evaluates the
operator after a truthiness guard. -/
def jsIn (key : String) : JsVal → Except String Bool
  | .obj fs => .ok (fs.hasKey key)
  | .arr _ => .ok false
  | _ => .error "TypeError"

/-- McpClientService.listTools applied to the value the remote server
responded with.  The source evaluates, left to right,
result && (tools in result) && Array.isArray(result.tools); when that holds
the wrapped list is returned, otherwise a bare array is returned as is, and
otherwise a warning is logged and the empty list returned.  An exception
raised by the condition itself is caught by the surrounding catch block,
logged, and re-thrown. -/
def listTools (result : JsVal) : ListToolsOutcome :=
  if result.truthy then
    match jsIn "tools" result with
    | .error e => .raise e
    | .ok hasTools =>
      if hasTools && (result.get "tools").isArray then
        .ok (result.get "tools").elems false
      else if result.isArray then
        .ok result.elems false
      else
        .ok [] true
  else if result.isArray then
    .ok result.elems false
  else
    .ok [] true

/-- The request envelope built by McpClientService.callTool and handed to
client.callTool. -/
def callToolRequest (toolName : String) (payload : JsVal) : JsVal :=
  .obj (.cons "name" (.str toolName) (.cons "arguments" payload .nil))

/-- McpClientService.callTool on the result path: the session (modelled as
a function from the request value to the response value) receives the
request envelope, and the service returns result.content, the content
property of whatever the session answered.  Returns the pair of the
forwarded request and the returned value. -/
def callToolRun (session : JsVal → JsVal) (toolName : String) (payload : JsVal) :
    JsVal × JsVal :=
  let request := callToolRequest toolName payload
  let result := session request
  (request, result.get "content")

/-- Amended description of the callTool return value, following the
corrected reading of the specification sentence: the value of the content
field of the response when the response is an object carrying one, and
undefined otherwise; the response itself is never returned wholesale. -/
def callToolAmendedResult (result : JsVal) : JsVal :=
  match result with
  | .obj fs => (fs.lookup "content").getD .undef
  | _ => (.undef)

/-- The claimed description of the callTool return value, following the
words of the claim: the content field when present, and the response
itself, verbatim, when the content field is absent. -/
def callToolClaimedResult (result : JsVal) : JsVal :=
  match result with
  | .obj fs =>
    match fs.lookup "content" with
    | some v => v
    | none => result
  | _ => result

/-! ## Action Result Normalizer: actionService.updateActionWithResult

The canonicalization of the raw result into text is a pure computation and
is translated below line by line from the body of the db.transaction
callback.  The transactional persistence itself depends on database/db and
on documentService, whose sources are not provided; their semantics are
modelled from the specification further down.
-/

/-- The Object.entries literal of the fallback digest branch of
updateActionWithResult, in source order.  The content entry is
result.text || result.content; the two metadata entries use optional
chaining, which yields undefined when metadata is nullish, exactly as
JsVal.get does. -/
def digestEntries (result : JsVal) : List (String × JsVal) :=
  [("uuid", result.get "uuid"),
   ("name", result.get "name"),
   ("content", jsOr (result.get "text") (result.get "content")),
   ("description", result.get "description"),
   ("metadata_description", (result.get "metadata").get "description"),
   ("metadata_source", (result.get "metadata").get "source"),
   ("original_source", result.get "source")]

/-- The digest string of the fallback branch: entries whose value is
neither undefined nor null, rendered one per line as key, colon, space and
the string conversion of the value. -/
def digestText (result : JsVal) : String :=
  String.intercalate "\n"
    (((digestEntries result).filter (fun p => !p.2.isNullish)).map
      (fun p => p.1 ++ ": " ++ p.2.toDisplay))

/-- The test applied to the first element of a content array:
typeof firstContent === object, firstContent !== null,
firstContent.type === the string text, and typeof firstContent.text ===
string. -/
def isTextContentItem (v : JsVal) : Bool :=
  v.isObjOrArr &&
    (match v.get "type" with
     | .str t => t = "text"
     | _ => false) &&
    (match v.get "text" with
     | .str _ => true
     | _ => false)

/-- The text property of a content item, for items that passed
isTextContentItem. -/
def textField (v : JsVal) : String :=
  match v.get "text" with
  | .str s => s
  | _ => ""

/-- The digest branch as a whole: the digest string unless it is empty (an
empty string is falsy), in which case the source stringifies the whole
result.  For the object and array receivers that reach this branch the
serialization is always defined. -/
def digestOrStringify (result : JsVal) : Option String :=
  let d := digestText result
  if d = "" then jsonStringify result else some d

/-- Computation of extracted_text_content in
actionService.updateActionWithResult.  A string result is used verbatim; a
non-null object or array result is inspected: when its content property is
a non-empty array whose first element passes the text-item test, that text
is used, when the first element fails the test the whole result is
serialized, and when the content property is anything else (absent, a
string, a non-array, or an empty array) the digest branch applies; every
other result (null, boolean, number, undefined) is serialized with
JSON.stringify.  The value none arises exactly where the source leaves the
variable undefined, namely for an undefined raw result. -/
def extractedTextContent (result : JsVal) : Option String :=
  match result with
  | .str s => some s
  | .arr _ =>
    aux result
  | .obj _ =>
    aux result
  | _ => jsonStringify result
where
  /-- The typeof-object branch shared by array and object receivers. -/
  aux (result : JsVal) : Option String :=
    match result.get "content" with
    | .arr (.cons first _) =>
      if isTextContentItem first then some (textField first)
      else jsonStringify result
    | _ => digestOrStringify result

/-- Truthiness of the extracted document text: the document branch runs
exactly when document_text is a non-empty string. -/
def documentTextTruthy (text : Option String) : Bool :=
  match text with
  | some t => decide (t ≠ "")
  | none => false

/-- The persisted state read and written by updateActionWithResult for the
one action row in scope: whether an action with the requested uuid exists,
its status and result columns, the list of created document texts, and the
number of action-document association rows. -/
structure DbState where
  actionExists : Bool
  status : String
  result : Option String
  documents : List String
  links : Nat
deriving Repr, DecidableEq

/-- Outcome of the db.transaction call of updateActionWithResult: a commit
carrying the new state and the number of documents attached to the
returned action, or a rollback carrying the untouched initial state and
the error. -/
inductive TxOutcome where
  | committed (st : DbState) (returnedDocs : Nat)
  | rolledBack (st : DbState) (err : String)
deriving Repr, DecidableEq

/-- Modelled from the spec: the transactional semantics of database/db and
the document creation of document.service, neither of which is among the
provided sources.  Per the specification, the status write, the result
write, the document creation and the action-document link of
updateActionWithResult form one transaction, and any failure inside it
rolls every write back, leaving the initial state observable.  The body
below follows the source order of the transaction callback: the text is
canonicalized, the action row is updated to completed (a missing row
throws), and when the canonical text is truthy a document carrying it is
created (docCreateOk abstracts the outcome of
documentService.createDocument) and linked; a falsy text skips the
document branch and the action is returned with no documents. -/
def updateActionWithResultTx (docCreateOk : Bool) (st : DbState) (result : JsVal) :
    TxOutcome :=
  let text := extractedTextContent result
  if st.actionExists then
    let st1 : DbState :=
      { st with
        status := "completed"
        result := match text with
                  | some t => some t
                  | none => st.result }
    match text with
    | some t =>
      if t ≠ "" then
        if docCreateOk then
          .committed
            { st1 with documents := st1.documents ++ [t], links := st1.links + 1 } 1
        else
          .rolledBack st "document creation failed"
      else
        .committed st1 0
    | none => .committed st1 0
  else
    .rolledBack st "Action not found"

/-! ## Tool Registry: ToolRegistrationService

Embedded from the provided registration service source that loads native
tool metadata from the database tool service and starts from an empty
activeToolsMap.  The database fetch, the per-server connection and the
per-server tool listing are the environment of the pure registration
algorithm and are passed in as parameters; a thrown error of one of them is
an error value here, matched by the catch clauses of the source.
-/

/-- Single-quote character, used by the instruction templates of the
source. -/
def sq : String := String.singleton (Char.ofNat 39)

/-- Test for the shapes on which typeof yields the word object, null
included. -/
def JsVal.typeofIsObject : JsVal → Bool
  | .null => true
  | .arr _ => true
  | .obj _ => true
  | _ => false

/-- Object.entries on the values the instruction synthesizer can reach:
own enumerable entries of an object in insertion order, indexed entries of
an array, indexed characters of a string, and no entries for the remaining
primitives. -/
def JsVal.objEntries : JsVal → List (String × JsVal)
  | .obj fs => fs.toList
  | .arr ts => ts.toList.enum.map (fun p => (toString p.1, p.2))
  | .str s => s.data.enum.map (fun p => (toString p.1, JsVal.str (String.singleton p.2)))
  | _ => []

/-- The includes test of actualRequired?.includes(paramName): array
membership under strict equality.  The required lists of the JSON schemas
in scope are arrays whenever present; a nullish receiver short-circuits to
undefined before the call, and no other receiver shape occurs in the
sources or claims. -/
def jsIncludesStr (v : JsVal) (s : String) : Bool :=
  match v with
  | .arr ts => ts.toList.any (fun x => x == .str s)
  | _ => false

/-- ToolRegistrationService.formatMcpInstruction: synthesizes the usage
instruction for one MCP tool from its JSON input schema.  The double
nesting anomaly is detected exactly as in the source: the properties value
is truthy, has exactly one key, that key is inputSchema, its value is
truthy and of object type, and that value has a truthy properties field;
then the nested properties and required (defaulted to an empty array) are
used.  Each parameter line shows the name, the declared type or the word
any, the description when truthy, and a required marker when the parameter
occurs in the required list. -/
def formatMcpInstruction (toolName : String) (schema : JsVal) : String :=
  let header := "To use the " ++ sq ++ toolName ++ sq ++
    " tool, provide the following parameters in the payload as a JSON object:\n"
  let props0 := schema.get "properties"
  let req0 := schema.get "required"
  let nested := props0.get "inputSchema"
  let anomaly :=
    props0.truthy && decide (props0.objEntries.length = 1) &&
    nested.truthy && nested.typeofIsObject && (nested.get "properties").truthy
  let actualProperties := if anomaly then nested.get "properties" else props0
  let actualRequired := if anomaly then jsOr (nested.get "required") (.arr .nil) else req0
  if actualProperties.truthy && decide (0 < actualProperties.objEntries.length) then
    header ++ String.join (actualProperties.objEntries.map (fun p =>
      "- \"" ++ p.1 ++ "\": (type: " ++ (jsOr (p.2.get "type") (.str "any")).toDisplay ++
      (if (p.2.get "description").truthy
       then ", description: " ++ (p.2.get "description").toDisplay
       else "") ++
      ")" ++ (if jsIncludesStr actualRequired p.1 then " [required]" else "") ++ "\n"))
  else
    header ++ "This tool may not have explicitly defined parameters in its schema or uses a generic payload structure. Refer to its description or the tool may not require specific input fields."

/-- A catalog entry of the agent (the internal Tool type).  The random
uuid the source attaches to each entry is omitted: no claim mentions it
and it carries no information about the registration algorithm. -/
structure AgentTool where
  name : String
  description : String
  instruction : String
deriving Repr, DecidableEq

/-- A tool definition reported by a remote MCP server. -/
structure McpToolDef where
  name : String
  description : Option String
  inputSchema : JsVal
deriving DecidableEq

/-- The catalog description of a discovered MCP tool:
mcpTool.description || the generic fallback, where an absent or empty
description is falsy. -/
def mcpToolDescription (cfg : McpServerConfig) (td : McpToolDef) : String :=
  match td.description with
  | some d => if d = "" then "MCP tool " ++ td.name ++ " from " ++ cfg.name else d
  | none => "MCP tool " ++ td.name ++ " from " ++ cfg.name

/-- The executor bound to a callable-map key: a native service from the
static toolsMap, or the closure that forwards to callTool on the session of
the given server. -/
inductive ExecutorRef where
  | native (serviceName : String)
  | mcp (serverId : String)
deriving Repr, DecidableEq

/-- Assignment to a JavaScript object property, activeToolsMap[key] = v: an
existing binding is overwritten in place, a new one is appended in
insertion order. -/
def upsertKV {α : Type} (m : List (String × α)) (k : String) (v : α) :
    List (String × α) :=
  if (m.find? (fun p => p.1 = k)).isSome then
    m.map (fun p => if p.1 = k then (k, v) else p)
  else
    m ++ [(k, v)]

/-- Keys of the static local-operations map toolsMap of
src/config/tools.config.ts. -/
def toolsMapNames : List String :=
  ["spotify", "memory", "resend", "files", "speak", "linear", "maps",
   "crypto", "google", "calendar", "final_answer"]

/-- One iteration of the native-tool loop of initializeTools: the database
entry is appended to loadedTools unconditionally, and the executor is wired
into activeToolsMap only when the static map holds a service under the same
name; otherwise a warning is logged and only the map registration is
skipped.  The accumulator is the pair of loadedTools and
activeToolsMap. -/
def registerNativeTool (cfgNames : List String)
    (acc : List AgentTool × List (String × ExecutorRef)) (t : AgentTool) :
    List AgentTool × List (String × ExecutorRef) :=
  let loaded := acc.1 ++ [t]
  if t.name ∈ cfgNames then
    (loaded, upsertKV acc.2 t.name (.native t.name))
  else
    (loaded, acc.2)

/-- The catalog entry pushed for one discovered MCP tool: the composite
key serverId/toolName, the described or defaulted description, and the
synthesized instruction. -/
def mcpToolEntry (cfg : McpServerConfig) (td : McpToolDef) : AgentTool :=
  { name := cfg.id ++ "/" ++ td.name
    description := mcpToolDescription cfg td
    instruction := formatMcpInstruction td.name td.inputSchema }

/-- One discovered MCP tool: the composite key serverId/toolName is pushed
onto loadedTools with the synthesized instruction, and the forwarding
executor is stored in activeToolsMap under the same key. -/
def registerMcpTool (cfg : McpServerConfig)
    (acc : List AgentTool × List (String × ExecutorRef)) (td : McpToolDef) :
    List AgentTool × List (String × ExecutorRef) :=
  (acc.1 ++ [mcpToolEntry cfg td],
   upsertKV acc.2 (cfg.id ++ "/" ++ td.name) (.mcp cfg.id))

/-- Per-server registration of initializeTools.  The source iterates over
every entry of mcpServerRegistry; the check of the enabled flag is present
only as a commented-out line, so the flag is never consulted.  discover
abstracts the pair getClient and listTools for the server; its error value
is the caught and logged per-server failure, after which the loop
continues.  The accumulator also records, in order, the ids of the servers
for which a connection was requested. -/
def processServer (discover : McpServerConfig → Except Unit (List McpToolDef))
    (acc : (List AgentTool × List (String × ExecutorRef)) × List String)
    (cfg : McpServerConfig) :
    (List AgentTool × List (String × ExecutorRef)) × List String :=
  let attempted := acc.2 ++ [cfg.id]
  match discover cfg with
  | .ok tds => (tds.foldl (registerMcpTool cfg) acc.1, attempted)
  | .error _ => (acc.1, attempted)

/-- The tool list a server contributes to the pass: the listed tools when
connection and listing succeeded, none when the per-server failure was
caught. -/
def discoveredToolsOf (discover : McpServerConfig → Except Unit (List McpToolDef))
    (cfg : McpServerConfig) : List McpToolDef :=
  match discover cfg with
  | .ok tds => tds
  | .error _ => []

/-- The environment consumed by one registration pass: the database fetch
of native tool metadata (an error value models the caught fetch failure),
the key set of the static local-operations map, the configured server list,
and the per-server discovery outcome. -/
structure RegistryEnv where
  dbNativeTools : Except Unit (List AgentTool)
  nativeToolsMapConfig : List String
  mcpServerRegistry : List McpServerConfig
  discover : McpServerConfig → Except Unit (List McpToolDef)

/-- The shared state of the registry: the isInitialized completion flag,
the process-wide activeToolsMap, the catalog published to the session via
stateManager.updateSession, plus two instrumentation fields: the number of
full initialization passes performed and the ids of the servers a
connection was requested for during the last pass. -/
structure RegistryState where
  isInitialized : Bool
  activeToolsMap : List (String × ExecutorRef)
  sessionTools : List AgentTool
  passesRun : Nat
  attemptedServers : List String
deriving Repr, DecidableEq

/-- The state of the registry module at process start: completion flag
down, empty activeToolsMap, no published catalog. -/
def initialRegistryState : RegistryState :=
  { isInitialized := false
    activeToolsMap := []
    sessionTools := []
    passesRun := 0
    attemptedServers := [] }

/-- Step 1 of initializeTools: loadedTools starts empty and the native
tools fetched from the database are folded in; a caught fetch failure
leaves the native section empty.  m is the shared activeToolsMap the pass
starts from. -/
def nativePhase (env : RegistryEnv) (m : List (String × ExecutorRef)) :
    List AgentTool × List (String × ExecutorRef) :=
  match env.dbNativeTools with
  | .ok dbTools => dbTools.foldl (registerNativeTool env.nativeToolsMapConfig) ([], m)
  | .error _ => ([], m)

/-- ToolRegistrationService.initializeTools.  A set completion flag
short-circuits the whole pass.  Otherwise the native phase runs, every
configured server is processed in order regardless of its enabled flag,
and finally the catalog is published, the flag is set, and the pass
counter advances. -/
def initializeTools (env : RegistryEnv) (st : RegistryState) : RegistryState :=
  if st.isInitialized then st
  else
    let acc2 := env.mcpServerRegistry.foldl (processServer env.discover)
      (nativePhase env st.activeToolsMap, [])
    { isInitialized := true
      activeToolsMap := acc2.1.2
      sessionTools := acc2.1.1
      passesRun := st.passesRun + 1
      attemptedServers := acc2.2 }

/-- Names of the catalog entries published by the registry, in order. -/
def catalogNames (st : RegistryState) : List String :=
  st.sessionTools.map (fun t => t.name)

/-- Keys of the callable map, in order. -/
def mapKeys (st : RegistryState) : List String :=
  st.activeToolsMap.map (fun p => p.1)

/-! ## Concrete fixtures used by counterexamples and witnesses -/

/-- A native catalog entry whose name has no executor in the static
local-operations map. -/
def ghostTool : AgentTool := { name := "ghost", description := "g", instruction := "g" }

/-- Environment for the catalog-invariant counterexample: the database
reports the same executor-less entry twice and no server is
configured. -/
def c1Env : RegistryEnv :=
  { dbNativeTools := .ok [ghostTool, ghostTool]
    nativeToolsMapConfig := toolsMapNames
    mcpServerRegistry := []
    discover := fun _ => .error () }

/-- A server configuration whose enabled flag is false. -/
def c2ServerConfig : McpServerConfig :=
  { id := "s1", name := "S", address := none, transport_type := "stdio",
    command := some "cmd", args := [], env := [], enabled := false }

/-- Environment for the disabled-server run: one disabled server whose
discovery would succeed with a single tool. -/
def c2Env : RegistryEnv :=
  { dbNativeTools := .ok []
    nativeToolsMapConfig := toolsMapNames
    mcpServerRegistry := [c2ServerConfig]
    discover := fun cfg =>
      if cfg.id = "s1" then .ok [{ name := "t", description := none, inputSchema := .obj .nil }]
      else .error () }

/-- Minimal environment for the idempotence witness. -/
def c9Env : RegistryEnv :=
  { dbNativeTools := .error ()
    nativeToolsMapConfig := []
    mcpServerRegistry := []
    discover := fun _ => .error () }

/-! ## Theorems -/

/-- C3 counterexample: a server response carrying no content field.  The
source returns result.content, which is undefined for this response, while
the claim states the response itself is returned verbatim; the two
disagree. -/
theorem c3_callTool_counterexample :
    (callToolRun (fun _ => JsVal.obj (.cons "data" (.str "x") .nil)) "t" (.obj .nil)).2
      = JsVal.undef ∧
    callToolClaimedResult (JsVal.obj (.cons "data" (.str "x") .nil))
      = JsVal.obj (.cons "data" (.str "x") .nil) ∧
    JsVal.undef ≠ JsVal.obj (.cons "data" (.str "x") .nil) :=
  ⟨rfl, rfl, by decide⟩

/-- C3, amended: for every session, tool name and payload, callTool
forwards the envelope with the name and arguments fields to the session and
returns the content field of the response; when the content field is
absent the returned value is undefined, not the response verbatim. -/
theorem c3_callTool_content_projection (session : JsVal → JsVal) (toolName : String)
    (payload : JsVal) :
    (callToolRun session toolName payload).1 =
      JsVal.obj (.cons "name" (.str toolName) (.cons "arguments" payload .nil)) ∧
    (callToolRun session toolName payload).2 =
      callToolAmendedResult (session (callToolRequest toolName payload)) := by
  refine ⟨rfl, ?_⟩
  show (session (callToolRequest toolName payload)).get "content" = _
  cases session (callToolRequest toolName payload) <;> rfl

/-- C8 counterexample: a truthy primitive response (the number 42).  The
membership test tools in result throws a TypeError on a primitive operand,
which the catch block logs and re-throws, so listTools raises to its caller
instead of returning the empty sequence the claim promises for every
response of another shape. -/
theorem c8_listTools_counterexample :
    listTools (JsVal.num 42) = ListToolsOutcome.raise "TypeError" ∧
    listTools (JsVal.num 42) ≠ ListToolsOutcome.ok [] true :=
  ⟨rfl, by decide⟩

/-- C8, amended: listTools maps a bare array and an object wrapping an
array under the tools field to the identical ordered sequence; an object
response without such a field, and every falsy response, logs a warning and
yields the empty sequence; but a truthy primitive response (non-zero
number, non-empty string, true) raises a TypeError to the caller rather
than returning empty. -/
theorem c8_listTools_normalization :
    (∀ ts : JsArr, listTools (.arr ts) = .ok ts.toList false) ∧
    (∀ (fs : JsObj) (ts : JsArr), fs.lookup "tools" = some (.arr ts) →
      listTools (.obj fs) = .ok ts.toList false) ∧
    (∀ fs : JsObj, (∀ ts : JsArr, fs.lookup "tools" ≠ some (.arr ts)) →
      listTools (.obj fs) = .ok [] true) ∧
    (∀ v : JsVal, v.truthy = false → listTools v = .ok [] true) ∧
    (∀ n : Int, n ≠ 0 → listTools (.num n) = .raise "TypeError") ∧
    (∀ s : String, s ≠ "" → listTools (.str s) = .raise "TypeError") ∧
    listTools (.bool true) = .raise "TypeError" := by
  refine ⟨fun ts => rfl, ?_, ?_, ?_, ?_, ?_, rfl⟩
  · intro fs ts h
    simp [listTools, jsIn, JsObj.hasKey, h, JsVal.get, JsVal.isArray, JsVal.elems,
      JsVal.truthy]
  · intro fs h
    cases h' : fs.lookup "tools" with
    | none =>
      simp [listTools, jsIn, JsObj.hasKey, h', JsVal.truthy, JsVal.isArray]
    | some v =>
      cases v with
      | arr ts => exact absurd h' (h ts)
      | undef => simp [listTools, jsIn, JsObj.hasKey, h', JsVal.truthy, JsVal.isArray, JsVal.get]
      | null => simp [listTools, jsIn, JsObj.hasKey, h', JsVal.truthy, JsVal.isArray, JsVal.get]
      | bool b => simp [listTools, jsIn, JsObj.hasKey, h', JsVal.truthy, JsVal.isArray, JsVal.get]
      | num n => simp [listTools, jsIn, JsObj.hasKey, h', JsVal.truthy, JsVal.isArray, JsVal.get]
      | str s => simp [listTools, jsIn, JsObj.hasKey, h', JsVal.truthy, JsVal.isArray, JsVal.get]
      | obj fs2 => simp [listTools, jsIn, JsObj.hasKey, h', JsVal.truthy, JsVal.isArray, JsVal.get]
  · intro v hv
    cases v with
    | bool b => simp [JsVal.truthy] at hv; subst hv; rfl
    | num n => simp [JsVal.truthy] at hv; subst hv; rfl
    | str s => simp [JsVal.truthy] at hv; subst hv; rfl
    | arr ts => simp [JsVal.truthy] at hv
    | obj fs => simp [JsVal.truthy] at hv
    | undef => rfl
    | null => rfl
  · intro n h
    simp [listTools, JsVal.truthy, h, jsIn]
  · intro s h
    simp [listTools, JsVal.truthy, h, jsIn]

/-- C8 witness: the wrapped and the bare shape of a one-tool listing both
normalize to that one-element sequence. -/
theorem c8_listTools_witness :
    (JsObj.cons "tools" (.arr (.cons (.str "t") .nil)) .nil).lookup "tools"
      = some (.arr (.cons (.str "t") .nil)) ∧
    listTools (.obj (JsObj.cons "tools" (.arr (.cons (.str "t") .nil)) .nil))
      = .ok [.str "t"] false ∧
    listTools (.arr (.cons (.str "t") .nil)) = .ok [.str "t"] false :=
  ⟨rfl, c8_listTools_normalization.2.1 _ (.cons (.str "t") .nil) rfl,
   c8_listTools_normalization.1 (.cons (.str "t") .nil)⟩

/-- C4 counterexample: an object whose content field is a string.  The
claim requires the full structured serialization for every object whose
content field fails the text shape, but the source only serializes when
content is a non-empty array; a string-valued content falls through to the
line-per-field digest, which differs from the serialization. -/
theorem c4_canonicalization_counterexample :
    extractedTextContent (.obj (.cons "content" (.str "hello") .nil)) = some "content: hello" ∧
    jsonStringify (.obj (.cons "content" (.str "hello") .nil)) =
      some "\x7b\"content\":\"hello\"\x7d" ∧
    some "content: hello" ≠ some "\x7b\"content\":\"hello\"\x7d" :=
  ⟨rfl, rfl, by decide⟩

/-- C4, amended: a string result is used verbatim; an object whose content
field is a non-empty array uses the text of a text-shaped first element and
otherwise the full serialization; an object whose content field does not
hold a non-empty array (a string, a non-array, an empty array, or no
content at all) takes the line-per-field digest branch, which falls back to
the full serialization only when the digest is empty. -/
theorem c4_canonicalization_rules :
    (∀ s : String, extractedTextContent (.str s) = some s) ∧
    (∀ (fs : JsObj) (first : JsVal) (rest : JsArr),
      fs.lookup "content" = some (.arr (.cons first rest)) →
      isTextContentItem first = true →
      extractedTextContent (.obj fs) = some (textField first)) ∧
    (∀ (fs : JsObj) (first : JsVal) (rest : JsArr),
      fs.lookup "content" = some (.arr (.cons first rest)) →
      isTextContentItem first = false →
      extractedTextContent (.obj fs) = jsonStringify (.obj fs)) ∧
    (∀ fs : JsObj,
      (∀ (first : JsVal) (rest : JsArr), fs.lookup "content" ≠ some (.arr (.cons first rest))) →
      extractedTextContent (.obj fs) = digestOrStringify (.obj fs)) := by
  refine ⟨fun s => rfl, ?_, ?_, ?_⟩
  · intro fs first rest h ht
    simp [extractedTextContent, extractedTextContent.aux, JsVal.get, h, ht]
  · intro fs first rest h ht
    simp [extractedTextContent, extractedTextContent.aux, JsVal.get, h, ht]
  · intro fs h
    cases h' : fs.lookup "content" with
    | none => simp [extractedTextContent, extractedTextContent.aux, JsVal.get, h']
    | some v =>
      cases v with
      | arr ts =>
        cases ts with
        | nil => simp [extractedTextContent, extractedTextContent.aux, JsVal.get, h']
        | cons first rest => exact absurd h' (h first rest)
      | undef => simp [extractedTextContent, extractedTextContent.aux, JsVal.get, h']
      | null => simp [extractedTextContent, extractedTextContent.aux, JsVal.get, h']
      | bool b => simp [extractedTextContent, extractedTextContent.aux, JsVal.get, h']
      | num n => simp [extractedTextContent, extractedTextContent.aux, JsVal.get, h']
      | str s => simp [extractedTextContent, extractedTextContent.aux, JsVal.get, h']
      | obj fs2 => simp [extractedTextContent, extractedTextContent.aux, JsVal.get, h']

/-- C4 witness: the MCP text shape with text 42 canonicalizes to exactly
that text. -/
theorem c4_canonicalization_witness :
    (JsObj.cons "content"
        (.arr (.cons (.obj (.cons "type" (.str "text") (.cons "text" (.str "42") .nil))) .nil))
        .nil).lookup "content"
      = some (.arr (.cons (.obj (.cons "type" (.str "text") (.cons "text" (.str "42") .nil))) .nil)) ∧
    isTextContentItem (.obj (.cons "type" (.str "text") (.cons "text" (.str "42") .nil))) = true ∧
    extractedTextContent
        (.obj (JsObj.cons "content"
          (.arr (.cons (.obj (.cons "type" (.str "text") (.cons "text" (.str "42") .nil))) .nil))
          .nil))
      = some "42" :=
  ⟨rfl, by decide,
   c4_canonicalization_rules.2.1
     (JsObj.cons "content"
       (.arr (.cons (.obj (.cons "type" (.str "text") (.cons "text" (.str "42") .nil))) .nil))
       .nil)
     (.obj (.cons "type" (.str "text") (.cons "text" (.str "42") .nil)))
     .nil rfl (by decide)⟩

/-- C5: atomicity of updateActionWithResult, settled against the
spec-modelled transactional store (database/db and document.service are
not among the provided sources).  Every failing run reports the untouched
initial state, and a document-creation failure on a truthy canonical text
makes the whole transaction roll back, leaving status and result
unchanged. -/
theorem c5_transaction_atomicity :
    (∀ (docCreateOk : Bool) (st : DbState) (v : JsVal) (st2 : DbState) (e : String),
      updateActionWithResultTx docCreateOk st v = .rolledBack st2 e → st2 = st) ∧
    (∀ (st : DbState) (v : JsVal), st.actionExists = true →
      documentTextTruthy (extractedTextContent v) = true →
      updateActionWithResultTx false st v = .rolledBack st "document creation failed") := by
  constructor
  · intro ok st v st2 e h
    by_cases hA : st.actionExists = true
    · cases hx : extractedTextContent v with
      | none => simp [updateActionWithResultTx, hA, hx] at h
      | some t =>
        by_cases ht : t = ""
        · simp [updateActionWithResultTx, hA, hx, ht] at h
        · cases ok with
          | true => simp [updateActionWithResultTx, hA, hx, ht] at h
          | false =>
            simp [updateActionWithResultTx, hA, hx, ht] at h
            exact h.1.symm
    · simp only [Bool.not_eq_true] at hA
      simp [updateActionWithResultTx, hA] at h
      exact h.1.symm
  · intro st v hst htxt
    cases hx : extractedTextContent v with
    | none => rw [hx] at htxt; simp [documentTextTruthy] at htxt
    | some t =>
      rw [hx] at htxt
      simp [documentTextTruthy] at htxt
      simp [updateActionWithResultTx, hst, hx, htxt]

/-- C5 witness: on a pending action with a non-empty string result, a
failing document creation rolls the transaction back to the initial
state. -/
theorem c5_transaction_atomicity_witness :
    (DbState.mk true "pending" none [] 0).actionExists = true ∧
    documentTextTruthy (extractedTextContent (.str "hi")) = true ∧
    updateActionWithResultTx false (DbState.mk true "pending" none [] 0) (.str "hi")
      = .rolledBack (DbState.mk true "pending" none [] 0) "document creation failed" :=
  ⟨rfl, by decide,
   c5_transaction_atomicity.2 (DbState.mk true "pending" none [] 0) (.str "hi") rfl (by decide)⟩

/-- C10: the falsy raw results null, false and 0 serialize to the
non-empty strings null, false and 0, so the completed action always
receives a linked document carrying that text. -/
theorem c10_falsy_result_documented (st : DbState) (h : st.actionExists = true) :
    extractedTextContent .null = some "null" ∧
    extractedTextContent (.bool false) = some "false" ∧
    extractedTextContent (.num 0) = some "0" ∧
    updateActionWithResultTx true st .null = .committed { st with status := "completed", result := some "null", documents := st.documents ++ ["null"], links := st.links + 1 } 1 ∧
    updateActionWithResultTx true st (.bool false) = .committed { st with status := "completed", result := some "false", documents := st.documents ++ ["false"], links := st.links + 1 } 1 ∧
    updateActionWithResultTx true st (.num 0) = .committed { st with status := "completed", result := some "0", documents := st.documents ++ ["0"], links := st.links + 1 } 1 := by
  refine ⟨rfl, rfl, rfl, ?_, ?_, ?_⟩ <;>
    (simp [updateActionWithResultTx, h, extractedTextContent, jsonStringify]; try rfl)

/-- C10 witness: a concrete pending action updated with the raw result
null ends committed with one document carrying the text null. -/
theorem c10_falsy_result_documented_witness :
    (DbState.mk true "pending" none [] 0).actionExists = true ∧
    updateActionWithResultTx true (DbState.mk true "pending" none [] 0) .null
      = .committed (DbState.mk true "completed" (some "null") ["null"] 1) 1 :=
  ⟨rfl, (c10_falsy_result_documented (DbState.mk true "pending" none [] 0) rfl).2.2.2.1⟩

/-- Looking up the key just appended to a map that did not contain it. -/
theorem lookupA_append_self (m : List (String × Nat)) (k : String) (v : Nat)
    (h : lookupA m k = none) : lookupA (m ++ [(k, v)]) k = some v := by
  simp only [lookupA, Option.map_eq_none'] at h
  simp [lookupA, List.find?_append, h, List.find?]

/-- Map.set of a fresh key makes the key resolve to the stored value. -/
theorem lookupA_insertA_of_none (m : List (String × Nat)) (k : String) (v : Nat)
    (h : lookupA m k = none) : lookupA (insertA m k v) k = some v := by
  have h' : m.find? (fun p => p.1 = k) = none := by
    simpa only [lookupA, Option.map_eq_none'] using h
  unfold insertA
  rw [h']
  simp only [Option.isSome_none, Bool.false_eq_true, if_false]
  exact lookupA_append_self m k v h

/-- One getClient step never changes the clients map; sessions are stored
only when an awaited attempt resolves. -/
theorem getClientStep_clients (id : String) (st : McpStore) :
    ((getClientStep id st).2).clients = st.clients := by
  rcases h1 : lookupA st.clients id with _ | sid
  · rcases h2 : lookupA st.connecting id with _ | aid
    · simp [getClientStep, h1, h2]
    · simp [getClientStep, h1, h2]
  · simp [getClientStep, h1]

/-- While a pending attempt is registered and no session is stored, every
further getClient call for the id joins that attempt and leaves the store
untouched. -/
theorem runGetClients_pending (id : String) (aid : Nat) :
    ∀ (k : Nat) (st : McpStore), lookupA st.clients id = none →
      lookupA st.connecting id = some aid →
      runGetClients id k st = (List.replicate k (.awaitPending aid), st) := by
  intro k
  induction k with
  | zero => intro st h1 h2; simp [runGetClients]
  | succ n ih =>
    intro st h1 h2
    simp [runGetClients, getClientStep, h1, h2, ih st h1 h2, List.replicate_succ]

/-- Once a session is stored for the id, every getClient call returns it
and leaves the store untouched. -/
theorem runGetClients_existing (id : String) (sid : Nat) :
    ∀ (m : Nat) (st : McpStore), lookupA st.clients id = some sid →
      runGetClients id m st = (List.replicate m (.existingSession sid), st) := by
  intro m
  induction m with
  | zero => intro st h; simp [runGetClients]
  | succ n ih =>
    intro st h
    simp [runGetClients, getClientStep, h, ih st h, List.replicate_succ]

/-- C6: getClient is single-flight per server id.  Starting from a store
with neither a session nor a pending attempt for the id, any burst of n+1
calls issued before the attempt resolves starts exactly one underlying
connection attempt (the first call) while every later call joins that same
attempt, so all of them await one shared promise and resolve to the same
session; and when a session already exists every call returns it without
touching the store, never triggering a duplicate attempt. -/
theorem c6_getClient_single_flight (id : String) (st : McpStore) (n : Nat)
    (hc : lookupA st.clients id = none) (hp : lookupA st.connecting id = none) :
    (runGetClients id (n + 1) st).1 =
      .startedConnect st.nextId :: List.replicate n (.awaitPending st.nextId) ∧
    (runGetClients id (n + 1) st).2.attemptsStarted = st.attemptsStarted + 1 ∧
    (∀ (sid m : Nat) (stE : McpStore), lookupA stE.clients id = some sid →
      runGetClients id m stE = (List.replicate m (.existingSession sid), stE)) := by
  have hstep : getClientStep id st =
      (.startedConnect st.nextId, { st with connecting := insertA st.connecting id st.nextId, nextId := st.nextId + 1, attemptsStarted := st.attemptsStarted + 1 }) := by
    simp [getClientStep, hc, hp]
  have hrun := runGetClients_pending id st.nextId n
    { st with connecting := insertA st.connecting id st.nextId, nextId := st.nextId + 1, attemptsStarted := st.attemptsStarted + 1 }
    hc (lookupA_insertA_of_none st.connecting id st.nextId hp)
  refine ⟨?_, ?_, fun sid m stE h => runGetClients_existing id sid m stE h⟩
  · simp [runGetClients, hstep, hrun]
  · simp [runGetClients, hstep, hrun]

/-- C6 witness: three concurrent calls on an empty store produce one
started attempt, two joins of the same attempt, and one attempt in
total. -/
theorem c6_getClient_single_flight_witness :
    lookupA (McpStore.mk [] [] 0 0).clients "srv" = none ∧
    lookupA (McpStore.mk [] [] 0 0).connecting "srv" = none ∧
    (runGetClients "srv" 3 (McpStore.mk [] [] 0 0)).1 =
      [.startedConnect 0, .awaitPending 0, .awaitPending 0] ∧
    (runGetClients "srv" 3 (McpStore.mk [] [] 0 0)).2.attemptsStarted = 1 :=
  ⟨rfl, rfl, (c6_getClient_single_flight "srv" (McpStore.mk [] [] 0 0) 2 rfl rfl).1,
   (c6_getClient_single_flight "srv" (McpStore.mk [] [] 0 0) 2 rfl rfl).2.1⟩

/-- C7: a stdio configuration without a command fails with the
configuration error before any effect is performed (no process spawned); a
http configuration without an address likewise fails with a configuration
error; an unknown transport kind fails with the unsupported-transport
error of the NotImplemented family instead of silently falling back; and a
failed attempt never stores a session for the id. -/
theorem c7_transport_validation (cfg : McpServerConfig) (connectOk : Bool) (sid : Nat) :
    (cfg.transport_type = "stdio" → cfg.command.getD "" = "" →
      establishConnection cfg connectOk sid = ([], .error .stdioNoCommand) ∧
      McpError.stdioNoCommand.isConfigurationError = true) ∧
    (cfg.transport_type = "http" → cfg.address.getD "" = "" →
      establishConnection cfg connectOk sid = ([], .error .httpNoAddress) ∧
      McpError.httpNoAddress.isConfigurationError = true) ∧
    (cfg.transport_type ≠ "stdio" → cfg.transport_type ≠ "http" →
      establishConnection cfg connectOk sid = ([], .error (.unsupportedTransport cfg.transport_type)) ∧
      (McpError.unsupportedTransport cfg.transport_type).isNotImplementedError = true) ∧
    (∀ (id : String) (st : McpStore), lookupA st.clients id = none →
      lookupA (resolveConnect id none (getClientStep id st).2).clients id = none) := by
  refine ⟨?_, ?_, ?_, ?_⟩
  · intro h1 h2
    refine ⟨?_, rfl⟩
    simp [establishConnection, h1, h2]
  · intro h1 h2
    refine ⟨?_, rfl⟩
    simp [establishConnection, h1, h2]
  · intro h1 h2
    refine ⟨?_, rfl⟩
    simp [establishConnection, h1, h2]
  · intro id st h
    simp [resolveConnect, getClientStep_clients, h]

/-- C7 witness: a concrete stdio configuration with no command yields the
configuration error with an empty effect list. -/
theorem c7_transport_validation_witness :
    ({ id := "a", name := "A", address := none, transport_type := "stdio", command := none, args := [], env := [], enabled := true } : McpServerConfig).transport_type = "stdio" ∧
    ({ id := "a", name := "A", address := none, transport_type := "stdio", command := none, args := [], env := [], enabled := true } : McpServerConfig).command.getD "" = "" ∧
    establishConnection { id := "a", name := "A", address := none, transport_type := "stdio", command := none, args := [], env := [], enabled := true } true 0 = ([], .error .stdioNoCommand) :=
  ⟨rfl, rfl,
   ((c7_transport_validation { id := "a", name := "A", address := none, transport_type := "stdio", command := none, args := [], env := [], enabled := true } true 0).1 rfl rfl).1⟩

/-- Keys after a JavaScript property assignment: the assigned key or a key
that was already present. -/
theorem mem_keys_upsertKV {α : Type} {m : List (String × α)} {k x : String} {v : α}
    (h : x ∈ (upsertKV m k v).map Prod.fst) : x = k ∨ x ∈ m.map Prod.fst := by
  unfold upsertKV at h
  split at h
  · simp only [List.map_map, List.mem_map, Function.comp] at h
    obtain ⟨p, hp, hx⟩ := h
    by_cases hpk : p.1 = k
    · left
      simp [hpk] at hx
      exact hx.symm
    · right
      simp [hpk] at hx
      exact hx ▸ List.mem_map_of_mem Prod.fst hp
  · simp only [List.map_append, List.mem_append, List.map_cons, List.map_nil,
      List.mem_singleton] at h
    rcases h with h | h
    · exact Or.inr h
    · exact Or.inl h

/-- The native loop pushes every database entry onto loadedTools,
executor or not. -/
theorem foldl_registerNativeTool_fst (c : List String) :
    ∀ (l : List AgentTool) (acc : List AgentTool × List (String × ExecutorRef)),
      (l.foldl (registerNativeTool c) acc).1 = acc.1 ++ l := by
  intro l
  induction l with
  | nil => intro acc; simp
  | cons t l ih =>
    intro acc
    have h1 : (registerNativeTool c acc t).1 = acc.1 ++ [t] := by
      unfold registerNativeTool
      split <;> rfl
    simp only [List.foldl_cons, ih (registerNativeTool c acc t), h1]
    simp

/-- A key added by the native loop belongs to the static executor map and
names one of the folded database entries. -/
theorem mem_keys_foldl_registerNativeTool (c : List String) :
    ∀ (l : List AgentTool) (acc : List AgentTool × List (String × ExecutorRef)) (k : String),
      k ∈ (l.foldl (registerNativeTool c) acc).2.map Prod.fst →
      k ∈ acc.2.map Prod.fst ∨ (k ∈ c ∧ ∃ t ∈ l, k = t.name) := by
  intro l
  induction l with
  | nil => intro acc k h; simp only [List.foldl_nil] at h; exact Or.inl h
  | cons t l ih =>
    intro acc k h
    simp only [List.foldl_cons] at h
    rcases ih (registerNativeTool c acc t) k h with h' | ⟨hc, t', ht', hk⟩
    · unfold registerNativeTool at h'
      by_cases hmem : t.name ∈ c
      · simp only [if_pos hmem] at h'
        rcases mem_keys_upsertKV h' with h'' | h''
        · exact Or.inr ⟨h'' ▸ hmem, t, List.mem_cons_self t l, h''⟩
        · exact Or.inl h''
      · simp only [if_neg hmem] at h'
        exact Or.inl h'
    · exact Or.inr ⟨hc, t', List.mem_cons_of_mem t ht', hk⟩

/-- The per-server loop pushes exactly one catalog entry per discovered
tool. -/
theorem foldl_registerMcpTool_fst (cfg : McpServerConfig) :
    ∀ (l : List McpToolDef) (acc : List AgentTool × List (String × ExecutorRef)),
      (l.foldl (registerMcpTool cfg) acc).1 = acc.1 ++ l.map (mcpToolEntry cfg) := by
  intro l
  induction l with
  | nil => intro acc; simp
  | cons td l ih =>
    intro acc
    rw [List.foldl_cons, ih (registerMcpTool cfg acc td)]
    simp [registerMcpTool]

/-- A key added while folding one server is a composite key of one of its
discovered tools. -/
theorem mem_keys_foldl_registerMcpTool (cfg : McpServerConfig) :
    ∀ (l : List McpToolDef) (acc : List AgentTool × List (String × ExecutorRef)) (k : String),
      k ∈ (l.foldl (registerMcpTool cfg) acc).2.map Prod.fst →
      k ∈ acc.2.map Prod.fst ∨ ∃ td ∈ l, k = cfg.id ++ "/" ++ td.name := by
  intro l
  induction l with
  | nil => intro acc k h; simp only [List.foldl_nil] at h; exact Or.inl h
  | cons td l ih =>
    intro acc k h
    simp only [List.foldl_cons] at h
    rcases ih (registerMcpTool cfg acc td) k h with h' | ⟨td', htd', hk⟩
    · unfold registerMcpTool at h'
      rcases mem_keys_upsertKV h' with h'' | h''
      · exact Or.inr ⟨td, List.mem_cons_self td l, h''⟩
      · exact Or.inl h''
    · exact Or.inr ⟨td', List.mem_cons_of_mem td htd', hk⟩

/-- Catalog contribution of one server: its discovered tools, mapped to
entries, appended behind the accumulator. -/
theorem processServer_fst (d : McpServerConfig → Except Unit (List McpToolDef))
    (acc : (List AgentTool × List (String × ExecutorRef)) × List String)
    (cfg : McpServerConfig) :
    (processServer d acc cfg).1.1 = acc.1.1 ++ (discoveredToolsOf d cfg).map (mcpToolEntry cfg) := by
  unfold processServer discoveredToolsOf
  cases d cfg with
  | ok tds => simp [foldl_registerMcpTool_fst]
  | error e => simp

/-- Callable-map contribution of one server, expressed through the inner
fold over its discovered tools. -/
theorem processServer_snd (d : McpServerConfig → Except Unit (List McpToolDef))
    (acc : (List AgentTool × List (String × ExecutorRef)) × List String)
    (cfg : McpServerConfig) :
    (processServer d acc cfg).1.2 = ((discoveredToolsOf d cfg).foldl (registerMcpTool cfg) acc.1).2 := by
  unfold processServer discoveredToolsOf
  cases d cfg with
  | ok tds => simp
  | error e => simp

/-- The server loop never removes catalog entries. -/
theorem mem_foldl_processServer_fst (d : McpServerConfig → Except Unit (List McpToolDef)) :
    ∀ (servers : List McpServerConfig)
      (acc : (List AgentTool × List (String × ExecutorRef)) × List String) (x : AgentTool),
      x ∈ acc.1.1 → x ∈ (servers.foldl (processServer d) acc).1.1 := by
  intro servers
  induction servers with
  | nil => intro acc x h; simpa using h
  | cons cfg servers ih =>
    intro acc x h
    simp only [List.foldl_cons]
    exact ih (processServer d acc cfg) x (by rw [processServer_fst]; exact List.mem_append_left _ h)

/-- Every discovered tool of every processed server reaches the
catalog. -/
theorem mem_mcpToolEntry_foldl_processServer (d : McpServerConfig → Except Unit (List McpToolDef)) :
    ∀ (servers : List McpServerConfig)
      (acc : (List AgentTool × List (String × ExecutorRef)) × List String)
      (cfg : McpServerConfig) (td : McpToolDef),
      cfg ∈ servers → td ∈ discoveredToolsOf d cfg →
      mcpToolEntry cfg td ∈ (servers.foldl (processServer d) acc).1.1 := by
  intro servers
  induction servers with
  | nil => intro acc cfg td h; simp at h
  | cons c servers ih =>
    intro acc cfg td hmem htd
    rcases List.mem_cons.mp hmem with heq | htail
    · subst heq
      simp only [List.foldl_cons]
      apply mem_foldl_processServer_fst
      rw [processServer_fst]
      exact List.mem_append_right _ (List.mem_map_of_mem _ htd)
    · simp only [List.foldl_cons]
      exact ih (processServer d acc c) cfg td htail htd

/-- A key present after the server loop was already present before it or
is the composite key of a discovered tool of one of the servers. -/
theorem mem_keys_foldl_processServer (d : McpServerConfig → Except Unit (List McpToolDef)) :
    ∀ (servers : List McpServerConfig)
      (acc : (List AgentTool × List (String × ExecutorRef)) × List String) (k : String),
      k ∈ (servers.foldl (processServer d) acc).1.2.map Prod.fst →
      k ∈ acc.1.2.map Prod.fst ∨
        ∃ cfg ∈ servers, ∃ td ∈ discoveredToolsOf d cfg, k = cfg.id ++ "/" ++ td.name := by
  intro servers
  induction servers with
  | nil => intro acc k h; simp only [List.foldl_nil] at h; exact Or.inl h
  | cons cfg servers ih =>
    intro acc k h
    simp only [List.foldl_cons] at h
    rcases ih (processServer d acc cfg) k h with h' | ⟨cfg', hcfg', td', htd', hk⟩
    · rw [processServer_snd] at h'
      rcases mem_keys_foldl_registerMcpTool cfg (discoveredToolsOf d cfg) acc.1 k h' with h'' | ⟨td, htd, hk⟩
      · exact Or.inl h''
      · exact Or.inr ⟨cfg, List.mem_cons_self cfg servers, td, htd, hk⟩
    · exact Or.inr ⟨cfg', List.mem_cons_of_mem cfg hcfg', td', htd', hk⟩

/-- On a fresh registry the published catalog and callable map are the
outputs of the two phases. -/
theorem catalog_of_initializeTools (env : RegistryEnv) (st : RegistryState)
    (hflag : st.isInitialized = false) :
    (initializeTools env st).sessionTools =
      (env.mcpServerRegistry.foldl (processServer env.discover)
        (nativePhase env st.activeToolsMap, [])).1.1 ∧
    (initializeTools env st).activeToolsMap =
      (env.mcpServerRegistry.foldl (processServer env.discover)
        (nativePhase env st.activeToolsMap, [])).1.2 := by
  constructor <;> simp [initializeTools, hflag]

/-- C1 counterexample: a database catalog holding the executor-less entry
ghost twice.  After initialization the catalog carries the name twice
(duplicate names) while the callable map is empty, so the keys of the
callable map do not equal the catalog names and the executor-less entry
was skipped only from the map, not from the catalog. -/
theorem c1_catalog_invariant_counterexample :
    catalogNames (initializeTools c1Env initialRegistryState) = ["ghost", "ghost"] ∧
    mapKeys (initializeTools c1Env initialRegistryState) = [] :=
  ⟨rfl, rfl⟩

/-- C1, amended: after a first initialization pass the callable-map keys
are a subset of the catalog names; a local entry with no matching executor
is logged and skipped only from the callable map — it still enters the
catalog, and it is absent from the callable map whenever its name does not
collide with a composite server key; the catalog itself may hold duplicate
names. -/
theorem c1_catalog_invariant_amended (env : RegistryEnv) (st : RegistryState)
    (hmap : st.activeToolsMap = []) (hflag : st.isInitialized = false) :
    (∀ k, k ∈ mapKeys (initializeTools env st) → k ∈ catalogNames (initializeTools env st)) ∧
    (∀ (dbTools : List AgentTool) (t : AgentTool), env.dbNativeTools = .ok dbTools → t ∈ dbTools →
      t.name ∈ catalogNames (initializeTools env st) ∧
      (t.name ∉ env.nativeToolsMapConfig →
        (∀ cfg ∈ env.mcpServerRegistry, ∀ td ∈ discoveredToolsOf env.discover cfg,
          t.name ≠ cfg.id ++ "/" ++ td.name) →
        t.name ∉ mapKeys (initializeTools env st))) := by
  obtain ⟨hcat, hkeys⟩ := catalog_of_initializeTools env st hflag
  have hnat_mem : ∀ (dbTools : List AgentTool) (t : AgentTool),
      env.dbNativeTools = .ok dbTools → t ∈ dbTools →
      t.name ∈ catalogNames (initializeTools env st) := by
    intro dbTools t hdb ht
    have h1 : (nativePhase env st.activeToolsMap).1 = dbTools := by
      simp [nativePhase, hdb, foldl_registerNativeTool_fst]
    have h2 : t ∈ (env.mcpServerRegistry.foldl (processServer env.discover)
        (nativePhase env st.activeToolsMap, [])).1.1 := by
      apply mem_foldl_processServer_fst
      show t ∈ (nativePhase env st.activeToolsMap, ([] : List String)).1.1
      simpa [h1] using ht
    unfold catalogNames
    rw [hcat]
    exact List.mem_map_of_mem (fun t => t.name) h2
  have hkey_origin : ∀ k, k ∈ mapKeys (initializeTools env st) →
      (k ∈ env.nativeToolsMapConfig ∧
        ∃ dbTools, env.dbNativeTools = .ok dbTools ∧ ∃ t ∈ dbTools, k = t.name) ∨
      (∃ cfg ∈ env.mcpServerRegistry, ∃ td ∈ discoveredToolsOf env.discover cfg,
        k = cfg.id ++ "/" ++ td.name) := by
    intro k hk
    unfold mapKeys at hk
    rw [hkeys] at hk
    rcases mem_keys_foldl_processServer env.discover env.mcpServerRegistry
        (nativePhase env st.activeToolsMap, []) k hk with h1 | h1
    · cases hdb : env.dbNativeTools with
      | ok dbTools =>
        simp only [nativePhase, hdb] at h1
        rcases mem_keys_foldl_registerNativeTool env.nativeToolsMapConfig dbTools
            ([], st.activeToolsMap) k h1 with h2 | ⟨h2, t, ht, hkt⟩
        · rw [hmap] at h2; simp at h2
        · exact Or.inl ⟨h2, dbTools, rfl, t, ht, hkt⟩
      | error e =>
        simp only [nativePhase, hdb] at h1
        rw [hmap] at h1; simp at h1
    · exact Or.inr h1
  refine ⟨?_, ?_⟩
  · intro k hk
    rcases hkey_origin k hk with ⟨_, dbTools, hdb, t, ht, hkt⟩ | ⟨cfg, hcfg, td, htd, hkt⟩
    · exact hkt ▸ hnat_mem dbTools t hdb ht
    · have h2 : mcpToolEntry cfg td ∈ (env.mcpServerRegistry.foldl (processServer env.discover)
          (nativePhase env st.activeToolsMap, [])).1.1 :=
        mem_mcpToolEntry_foldl_processServer env.discover env.mcpServerRegistry
          (nativePhase env st.activeToolsMap, []) cfg td hcfg htd
      unfold catalogNames
      rw [hcat]
      have := List.mem_map_of_mem (fun t : AgentTool => t.name) h2
      simpa [mcpToolEntry, hkt] using this
  · intro dbTools t hdb ht
    refine ⟨hnat_mem dbTools t hdb ht, ?_⟩
    intro hnc hmcp hk
    rcases hkey_origin t.name hk with ⟨h2, _⟩ | ⟨cfg, hcfg, td, htd, hkt⟩
    · exact hnc h2
    · exact hmcp cfg hcfg td htd hkt

/-- C1 witness: the executor-less entry ghost ends in the catalog and not
in the callable map of the concrete run. -/
theorem c1_catalog_invariant_witness :
    initialRegistryState.activeToolsMap = [] ∧
    initialRegistryState.isInitialized = false ∧
    c1Env.dbNativeTools = .ok [ghostTool, ghostTool] ∧
    ghostTool ∈ [ghostTool, ghostTool] ∧
    ghostTool.name ∉ c1Env.nativeToolsMapConfig ∧
    ghostTool.name ∈ catalogNames (initializeTools c1Env initialRegistryState) ∧
    ghostTool.name ∉ mapKeys (initializeTools c1Env initialRegistryState) := by
  have h := (c1_catalog_invariant_amended c1Env initialRegistryState rfl rfl).2
    [ghostTool, ghostTool] ghostTool rfl (List.mem_cons_self ghostTool [ghostTool])
  refine ⟨rfl, rfl, rfl, List.mem_cons_self ghostTool [ghostTool], by decide, h.1, ?_⟩
  exact h.2 (by decide) (by intro cfg hcfg; exact absurd hcfg (List.not_mem_nil cfg))

/-- C2: the registry processes a ServerConfig whose enabled flag is false
exactly like an enabled one — the enabled check exists in the source only
as a commented-out line — so a connection is requested for the disabled
server and its tools enter the catalog and the callable map, contradicting
the claim that disabled entries are skipped entirely. -/
theorem c2_disabled_server_processed :
    c2ServerConfig.enabled = false ∧
    (initializeTools c2Env initialRegistryState).attemptedServers = ["s1"] ∧
    catalogNames (initializeTools c2Env initialRegistryState) = ["s1/t"] ∧
    mapKeys (initializeTools c2Env initialRegistryState) = ["s1/t"] :=
  ⟨rfl, rfl, rfl, rfl⟩

/-- A registry whose completion flag is set short-circuits initializeTools
to a no-op. -/
theorem initializeTools_of_initialized (env : RegistryEnv) (st : RegistryState)
    (h : st.isInitialized = true) : initializeTools env st = st := by
  simp [initializeTools, h]

/-- C9: initialize is idempotent.  One call leaves the completion flag
set, a second call with the same environment returns the state unchanged
(same catalog, same callable map), and when the first call actually ran
the pass, the pass counter shows the work was performed exactly once over
the two sequential calls. -/
theorem c9_initialize_idempotent (env : RegistryEnv) (st : RegistryState) :
    initializeTools env (initializeTools env st) = initializeTools env st ∧
    (initializeTools env st).isInitialized = true ∧
    (st.isInitialized = false →
      (initializeTools env st).passesRun = st.passesRun + 1 ∧
      (initializeTools env (initializeTools env st)).passesRun = st.passesRun + 1) := by
  have hflag : (initializeTools env st).isInitialized = true := by
    by_cases h : st.isInitialized = true
    · simp [initializeTools, h]
    · simp only [Bool.not_eq_true] at h
      simp [initializeTools, h]
  have hid := initializeTools_of_initialized env (initializeTools env st) hflag
  refine ⟨hid, hflag, ?_⟩
  intro h
  have hp : (initializeTools env st).passesRun = st.passesRun + 1 := by
    simp [initializeTools, h]
  exact ⟨hp, by rw [hid]; exact hp⟩

/-- C9 witness: two sequential calls on a fresh registry perform one pass
and agree on the final state. -/
theorem c9_initialize_idempotent_witness :
    initialRegistryState.isInitialized = false ∧
    (initializeTools c9Env initialRegistryState).passesRun = 1 ∧
    (initializeTools c9Env (initializeTools c9Env initialRegistryState)).passesRun = 1 ∧
    initializeTools c9Env (initializeTools c9Env initialRegistryState)
      = initializeTools c9Env initialRegistryState :=
  ⟨rfl, ((c9_initialize_idempotent c9Env initialRegistryState).2.2 rfl).1,
   ((c9_initialize_idempotent c9Env initialRegistryState).2.2 rfl).2,
   (c9_initialize_idempotent c9Env initialRegistryState).1⟩

end AliceAgi
